import Mathlib

/-!
Shallow embedding of the core game logic of the CYBERSNAKE repository:
the per-frame tick scheduler and grid state machine in the `GameBoard`
component (`gameLoop`, speed curve) and the state owner in `App`
(`handleKeyDown`, `startGame`, `pauseGame`, `resumeGame`, `gameOver`,
`handleMove`, `getRandomPosition`), over `types.ts`.

Coordinates are integer pairs (JS numbers used integrally); timestamps
are integers; the rejection-sampling random generator is modelled by an
explicit list of candidate draws, with `none` standing for the loop
never finding a free cell.
-/

namespace Snake

/-- `Coordinate` from types.ts: integer pair (x, y). -/
structure Coordinate where
  x : Int
  y : Int
deriving DecidableEq, Repr

/-- `Direction` enum from types.ts. -/
inductive Direction where
  | UP
  | DOWN
  | LEFT
  | RIGHT
deriving DecidableEq, Repr

/-- `GameStatus` enum from types.ts. -/
inductive GameStatus where
  | IDLE
  | PLAYING
  | PAUSED
  | GAME_OVER
deriving DecidableEq, Repr

/-- The speed curve in `GameBoard`: `speedDecay = Math.min(100, score * 2)`;
`speedRef.current = Math.max(50, baseSpeed - speedDecay)` with `baseSpeed = 150`. -/
def speed (score : Nat) : Nat :=
  max 50 (150 - min 100 (score * 2))

/-- The direct reverse of a direction (not in the source as a function;
used to state the 180-degree-reversal guard of `handleKeyDown`). -/
def reverseDir : Direction → Direction
  | Direction.UP => Direction.DOWN
  | Direction.DOWN => Direction.UP
  | Direction.LEFT => Direction.RIGHT
  | Direction.RIGHT => Direction.LEFT

/-- The candidate head computed in `gameLoop`: copy of `head` shifted one
cell by the `switch (direction)` block (UP: y−1, DOWN: y+1, LEFT: x−1,
RIGHT: x+1). -/
def nextHead (head : Coordinate) : Direction → Coordinate
  | Direction.UP => { head with y := head.y - 1 }
  | Direction.DOWN => { head with y := head.y + 1 }
  | Direction.LEFT => { head with x := head.x - 1 }
  | Direction.RIGHT => { head with x := head.x + 1 }

/-- The wall check in `gameLoop`:
`newHead.x < 0 || newHead.x >= width || newHead.y < 0 || newHead.y >= height`. -/
def wallHit (c : Coordinate) (width height : Int) : Bool :=
  decide (c.x < 0) || decide (c.x ≥ width) || decide (c.y < 0) || decide (c.y ≥ height)

/-- The self-collision scan in `gameLoop`:
`for (let i = 0; i < snake.length - 1; i++)` testing
`newHead.x === snake[i].x && newHead.y === snake[i].y` — it walks every
segment except the last one. -/
def selfHit (newHead : Coordinate) (snake : List Coordinate) : Bool :=
  (snake.take (snake.length - 1)).any fun s => newHead.x == s.x && newHead.y == s.y

/-- Result of one gated tick, as reported by `gameLoop` to its owner:
`onGameOver()` on a collision, `onMove(newHead, grew)` on a commit. -/
inductive TickResult where
  | COLLIDED
  | MOVED (newHead : Coordinate) (grew : Bool)
deriving DecidableEq, Repr

/-- The movement/validation portion of `gameLoop` for one gated tick:
read `snake[0]`, shift it by `direction`, check walls, scan the body
(except the last segment), and report `grew` as
`newHead.x === food.x && newHead.y === food.y`. `none` models the
out-of-contract read `snake[0]` on an empty list. -/
def advance (snake : List Coordinate) (direction : Direction) (food : Coordinate)
    (width height : Int) : Option TickResult :=
  match snake with
  | [] => none
  | head :: _ =>
    let newHead := nextHead head direction
    if wallHit newHead width height then some TickResult.COLLIDED
    else if selfHit newHead snake then some TickResult.COLLIDED
    else some (TickResult.MOVED newHead (newHead.x == food.x && newHead.y == food.y))

/-- `getRandomPosition` from App, with the stream of `Math.random` draws
made explicit: the do-while loop returns the first draw that collides
with no snake segment (`snake.some(segment => segment.x === newPos.x &&
segment.y === newPos.y)`); `none` models the loop never terminating. -/
def getRandomPosition (draws : List Coordinate) (snake : List Coordinate) :
    Option Coordinate :=
  draws.find? fun p => !(snake.any fun segment => segment.x == p.x && segment.y == p.y)

/-- The game state owned by `App` (the `useState` cells the core mutates),
plus the scheduler's `lastTimeRef` kept alongside by `gameLoopFrame`. -/
structure AppState where
  status : GameStatus
  snake : List Coordinate
  food : Coordinate
  direction : Direction
  nextDirection : Direction
  score : Nat
  highScore : Nat
deriving DecidableEq, Repr

/-- One directional key in `handleKeyDown`: the queued heading
`nextDirection` is updated only when the current committed `direction` is
not the direct reverse of the pressed direction (e.g. ArrowDown runs
`if (direction !== Direction.UP) setNextDirection(Direction.DOWN)`). -/
def handleDirectionKey (s : AppState) (d : Direction) : AppState :=
  if s.direction = reverseDir d then s else { s with nextDirection := d }

/-- `pauseGame` from App: sets the status to PAUSED (the log entry is
outside the core state). -/
def pauseGame (s : AppState) : AppState :=
  { s with status := GameStatus.PAUSED }

/-- `resumeGame` from App: sets the status to PLAYING. -/
def resumeGame (s : AppState) : AppState :=
  { s with status := GameStatus.PLAYING }

/-- `gameOver` from App: sets the status to GAME_OVER and raises the high
score to the final score when it exceeds the previous best. -/
def gameOver (s : AppState) : AppState :=
  if s.score > s.highScore then
    { s with status := GameStatus.GAME_OVER, highScore := s.score }
  else
    { s with status := GameStatus.GAME_OVER }

/-- `handleMove` from App, invoked by `gameLoop` with the committed head
and the growth flag: commits `direction := nextDirection`, prepends the
new head; when not growing pops the last segment; when growing increments
the score and re-spawns food via `getRandomPosition` over the grown snake
(`draws` supplies the random stream; `none` models a non-terminating
rejection loop). -/
def handleMove (s : AppState) (newHead : Coordinate) (grew : Bool)
    (draws : List Coordinate) : Option AppState :=
  let newSnake := newHead :: s.snake
  if grew then
    match getRandomPosition draws newSnake with
    | none => none
    | some f =>
      some { s with direction := s.nextDirection, snake := newSnake,
                    score := s.score + 1, food := f }
  else
    some { s with direction := s.nextDirection, snake := newSnake.dropLast }

/-- One frame of `gameLoop` in `GameBoard`, state-mutation part only
(drawing elided): outside PLAYING nothing is mutated; in PLAYING, when
`time - lastTimeRef.current > speedRef.current` the tick fires — on a
collision `onGameOver()` runs and `lastTimeRef` is left alone (early
return), on a move `onMove(newHead, grew)` runs and `lastTimeRef.current
= time`. The `direction` prop GameBoard moves with is App's
`nextDirection`. Returns the new app state and the new `lastTimeRef`. -/
def gameLoopFrame (width height : Int) (s : AppState) (lastTime t : Int)
    (draws : List Coordinate) : Option (AppState × Int) :=
  if s.status = GameStatus.PLAYING then
    if t - lastTime > (speed s.score : Int) then
      match advance s.snake s.nextDirection s.food width height with
      | none => none
      | some TickResult.COLLIDED => some (gameOver s, lastTime)
      | some (TickResult.MOVED newHead grew) =>
        match handleMove s newHead grew draws with
        | none => none
        | some s' => some (s', t)
    else some (s, lastTime)
  else some (s, lastTime)

end Snake

namespace Snake

theorem speed_le_of_le (s₁ s₂ : Nat) (h : s₁ ≤ s₂) : speed s₂ ≤ speed s₁ := by
  unfold speed
  have hmin : min 100 (s₁ * 2) ≤ min 100 (s₂ * 2) :=
    min_le_min (Nat.le_refl 100) (Nat.mul_le_mul_right 2 h)
  have hsub : 150 - min 100 (s₂ * 2) ≤ 150 - min 100 (s₁ * 2) :=
    Nat.sub_le_sub_left hmin 150
  exact max_le_max (Nat.le_refl 50) hsub

theorem speed_ge_floor (s : Nat) : 50 ≤ speed s :=
  Nat.le_max_left 50 _

/-- C3: for every score, the tick interval is `max(50, 150 − min(100, s·2))` ms,
with interval(0)=150, interval(25)=100, interval(50)=50, interval(1000)=50,
non-increasing in the score and never below the 50 ms floor. -/
theorem speed_curve (s₁ s₂ : Nat) (h : s₁ ≤ s₂) :
    speed s₁ = max 50 (150 - min 100 (s₁ * 2)) ∧
    speed 0 = 150 ∧ speed 25 = 100 ∧ speed 50 = 50 ∧ speed 1000 = 50 ∧
    speed s₂ ≤ speed s₁ ∧ 50 ≤ speed s₁ :=
  ⟨rfl, by decide, by decide, by decide, by decide,
   speed_le_of_le s₁ s₂ h, speed_ge_floor s₁⟩

/-- Witness for C3 at scores 3 ≤ 7. -/
theorem speed_curve_witness :
    speed 3 = max 50 (150 - min 100 (3 * 2)) ∧
    speed 0 = 150 ∧ speed 25 = 100 ∧ speed 50 = 50 ∧ speed 1000 = 50 ∧
    speed 7 ≤ speed 3 ∧ 50 ≤ speed 3 :=
  speed_curve 3 7 (by decide)

theorem selfHit_iff_mem_dropLast (newHead : Coordinate) (snake : List Coordinate) :
    selfHit newHead snake = true ↔
      ∃ seg ∈ snake.dropLast, newHead.x = seg.x ∧ newHead.y = seg.y := by
  rw [selfHit, ← List.dropLast_eq_take, List.any_eq_true]
  constructor
  · rintro ⟨seg, hmem, hp⟩
    simp only [Bool.and_eq_true, beq_iff_eq] at hp
    exact ⟨seg, hmem, hp⟩
  · rintro ⟨seg, hmem, hx, hy⟩
    exact ⟨seg, hmem, by simp [hx, hy]⟩

/-- C1, counterexample: the self-collision loop in `gameLoop` stops at
`snake.length - 1`, so a candidate head landing exactly on the tail
segment is NOT treated as a collision: with Actor
[(1,1),(2,1),(2,2),(1,2)] heading DOWN, the candidate head (1,2)
coincides with the tail segment, yet the tick commits (MOVED), it does
not end the game. -/
theorem advance_tail_counterexample :
    advance [⟨1,1⟩, ⟨2,1⟩, ⟨2,2⟩, ⟨1,2⟩] Direction.DOWN ⟨5,5⟩ 25 25
      = some (TickResult.MOVED ⟨1,2⟩ false) ∧
    nextHead ⟨1,1⟩ Direction.DOWN = ⟨1,2⟩ ∧
    (⟨1,2⟩ : Coordinate) ∈ [(⟨1,1⟩ : Coordinate), ⟨2,1⟩, ⟨2,2⟩, ⟨1,2⟩] ∧
    some (TickResult.MOVED ⟨1,2⟩ false) ≠ some TickResult.COLLIDED := by
  refine ⟨by decide, by decide, by decide, by decide⟩

/-- C1, amended: for an in-bounds candidate head, the tick COLLIDES
exactly when the candidate head coincides with a segment of the Actor
other than the last (tail) segment; the soon-to-vacate tail IS
special-cased — landing on it alone commits the move. -/
theorem advance_tail_special_case (head : Coordinate) (rest : List Coordinate)
    (d : Direction) (food : Coordinate) (W H : Int)
    (hwall : wallHit (nextHead head d) W H = false) :
    (advance (head :: rest) d food W H = some TickResult.COLLIDED ↔
      ∃ seg ∈ (head :: rest).dropLast,
        (nextHead head d).x = seg.x ∧ (nextHead head d).y = seg.y) ∧
    ((∀ seg ∈ (head :: rest).dropLast,
        ¬((nextHead head d).x = seg.x ∧ (nextHead head d).y = seg.y)) →
      advance (head :: rest) d food W H
        = some (TickResult.MOVED (nextHead head d)
            ((nextHead head d).x == food.x && (nextHead head d).y == food.y))) := by
  constructor
  · rw [← selfHit_iff_mem_dropLast]
    constructor
    · intro h
      by_contra hself
      have hself' : selfHit (nextHead head d) (head :: rest) = false :=
        Bool.eq_false_iff.mpr hself
      simp [advance, hwall, hself'] at h
    · intro hself
      simp [advance, hwall, hself]
  · intro hnone
    have hself : selfHit (nextHead head d) (head :: rest) = false := by
      rw [Bool.eq_false_iff]
      intro h
      obtain ⟨seg, hmem, hxy⟩ := (selfHit_iff_mem_dropLast _ _).mp h
      exact hnone seg hmem hxy
    simp [advance, hwall, hself]

/-- Witness for C1's amended theorem: the loop-shaped Actor of the
counterexample, whose candidate head hits only the tail, commits. -/
theorem advance_tail_special_case_witness :
    advance [⟨1,1⟩, ⟨2,1⟩, ⟨2,2⟩, ⟨1,2⟩] Direction.DOWN ⟨5,5⟩ 25 25
      = some (TickResult.MOVED ⟨1,2⟩ false) := by
  have h := (advance_tail_special_case ⟨1,1⟩ [⟨2,1⟩, ⟨2,2⟩, ⟨1,2⟩]
    Direction.DOWN ⟨5,5⟩ 25 25 (by decide)).2 (by decide)
  simpa using h

theorem advance_moved_eq (head : Coordinate) (rest : List Coordinate)
    (d : Direction) (food : Coordinate) (W H : Int) (nh : Coordinate) (g : Bool)
    (h : advance (head :: rest) d food W H = some (TickResult.MOVED nh g)) :
    nh = nextHead head d ∧
    g = ((nextHead head d).x == food.x && (nextHead head d).y == food.y) := by
  simp only [advance] at h
  split at h
  · simp at h
  · split at h
    · simp at h
    · injection h with h1
      injection h1 with h2 h3
      exact ⟨h2.symm, h3.symm⟩

/-- C8: on every committed tick, the new head is the previous head shifted
one cell in the effective heading (UP: y−1, DOWN: y+1, LEFT: x−1,
RIGHT: x+1), hence at Manhattan distance 1; the reference scenario —
Actor [(10,10),(10,11),(10,12)] heading UP on a 25×25 board — yields
MOVED with head (10,9) and Actor [(10,9),(10,10),(10,11)]. -/
theorem moved_head_adjacent (head : Coordinate) (rest : List Coordinate)
    (d : Direction) (food : Coordinate) (W H : Int) (nh : Coordinate) (g : Bool)
    (h : advance (head :: rest) d food W H = some (TickResult.MOVED nh g)) :
    nh = nextHead head d ∧
    (nh.x - head.x).natAbs + (nh.y - head.y).natAbs = 1 ∧
    (d = Direction.UP → nh.x = head.x ∧ nh.y = head.y - 1) ∧
    (d = Direction.DOWN → nh.x = head.x ∧ nh.y = head.y + 1) ∧
    (d = Direction.LEFT → nh.x = head.x - 1 ∧ nh.y = head.y) ∧
    (d = Direction.RIGHT → nh.x = head.x + 1 ∧ nh.y = head.y) ∧
    advance [⟨10,10⟩, ⟨10,11⟩, ⟨10,12⟩] Direction.UP ⟨5,5⟩ 25 25
      = some (TickResult.MOVED ⟨10,9⟩ false) ∧
    (handleMove { status := GameStatus.PLAYING, snake := [⟨10,10⟩, ⟨10,11⟩, ⟨10,12⟩],
                  food := ⟨5,5⟩, direction := Direction.UP,
                  nextDirection := Direction.UP, score := 0, highScore := 0 }
        ⟨10,9⟩ false []).map AppState.snake
      = some [⟨10,9⟩, ⟨10,10⟩, ⟨10,11⟩] := by
  obtain ⟨hnh, -⟩ := advance_moved_eq head rest d food W H nh g h
  subst hnh
  refine ⟨rfl, ?_, ?_, ?_, ?_, ?_, by decide, by decide⟩
  · cases d <;> simp [nextHead]
  · intro hd; subst hd; exact ⟨rfl, rfl⟩
  · intro hd; subst hd; exact ⟨rfl, rfl⟩
  · intro hd; subst hd; exact ⟨rfl, rfl⟩
  · intro hd; subst hd; exact ⟨rfl, rfl⟩

/-- Witness for C8 at the reference scenario. -/
theorem moved_head_adjacent_witness :
    ((10 : Int) - 10).natAbs + ((9 : Int) - 10).natAbs = 1 :=
  (moved_head_adjacent ⟨10,10⟩ [⟨10,11⟩, ⟨10,12⟩] Direction.UP ⟨5,5⟩ 25 25
    ⟨10,9⟩ false (by decide)).2.1

/-- C6: a committed tick prepends the new head; when growing the length
rises by exactly 1 (no segment dropped), otherwise the last segment is
dropped and the length is unchanged. -/
theorem snake_length_change (s : AppState) (newHead : Coordinate) (grew : Bool)
    (draws : List Coordinate) (s' : AppState)
    (h : handleMove s newHead grew draws = some s') :
    (grew = true → s'.snake.length = s.snake.length + 1) ∧
    (grew = false → s'.snake.length = s.snake.length) ∧
    (grew = true → s'.snake = newHead :: s.snake) ∧
    (grew = false → s'.snake = (newHead :: s.snake).dropLast) := by
  cases grew
  · simp only [handleMove, Bool.false_eq_true, if_false] at h
    injection h with h1
    subst h1
    refine ⟨by simp, fun _ => by simp, by simp, fun _ => rfl⟩
  · simp only [handleMove, if_true] at h
    cases hfind : getRandomPosition draws (newHead :: s.snake) with
    | none => rw [hfind] at h; exact absurd h (by simp)
    | some f =>
      rw [hfind] at h
      injection h with h1
      subst h1
      refine ⟨fun _ => by simp, by simp, fun _ => rfl, by simp⟩

/-- Witness for C6 on a concrete non-growing move. -/
theorem snake_length_change_witness :
    (false = true →
      ([⟨4,4⟩, ⟨5,5⟩] : List Coordinate).length = ([⟨5,5⟩, ⟨5,6⟩] : List Coordinate).length + 1) ∧
    (false = false →
      ([⟨4,4⟩, ⟨5,5⟩] : List Coordinate).length = ([⟨5,5⟩, ⟨5,6⟩] : List Coordinate).length) := by
  have h := snake_length_change
    ⟨GameStatus.PLAYING, [⟨5,5⟩, ⟨5,6⟩], ⟨1,1⟩, Direction.UP, Direction.UP, 0, 0⟩
    ⟨4,4⟩ false []
    ⟨GameStatus.PLAYING, [⟨4,4⟩, ⟨5,5⟩], ⟨1,1⟩, Direction.UP, Direction.UP, 0, 0⟩
    (by decide)
  exact ⟨h.1, fun _ => h.2.1 rfl⟩

/-- C2, counterexample: the frame gate in `gameLoop` is
`deltaTime > speedRef.current`, strictly greater — on a frame whose
elapsed time EQUALS the interval (t = 150, lastTime = 0, interval 150)
no tick fires: the state is untouched and the last committed time stays
0 (≠ t), although `advance` would have moved, so the claimed `≥` gate is
not what the code does. -/
theorem frame_gating_counterexample :
    (150 : Int) - 0 ≥ ((speed 0 : Nat) : Int) ∧
    gameLoopFrame 25 25
        ⟨GameStatus.PLAYING, [⟨10,10⟩, ⟨10,11⟩, ⟨10,12⟩], ⟨5,5⟩,
         Direction.UP, Direction.UP, 0, 0⟩ 0 150 []
      = some (⟨GameStatus.PLAYING, [⟨10,10⟩, ⟨10,11⟩, ⟨10,12⟩], ⟨5,5⟩,
              Direction.UP, Direction.UP, 0, 0⟩, 0) ∧
    advance [⟨10,10⟩, ⟨10,11⟩, ⟨10,12⟩] Direction.UP ⟨5,5⟩ 25 25
      = some (TickResult.MOVED ⟨10,9⟩ false) ∧
    (0 : Int) ≠ 150 := by
  refine ⟨by decide, by decide, by decide, by decide⟩

/-- C2, amended: in PLAYING, `advance` is invoked exactly when
`t − lastCommittedTime` is STRICTLY greater than the current interval;
on MOVED, `t` becomes the new last committed time; when the elapsed time
is at most the interval, the frame mutates nothing and keeps the old
last committed time. -/
theorem frame_gating (W H : Int) (s : AppState) (lastTime t : Int)
    (draws : List Coordinate) (hstatus : s.status = GameStatus.PLAYING) :
    (t - lastTime ≤ (speed s.score : Int) →
      gameLoopFrame W H s lastTime t draws = some (s, lastTime)) ∧
    (t - lastTime > (speed s.score : Int) →
      ∀ (nh : Coordinate) (g : Bool) (s' : AppState),
        advance s.snake s.nextDirection s.food W H = some (TickResult.MOVED nh g) →
        handleMove s nh g draws = some s' →
        gameLoopFrame W H s lastTime t draws = some (s', t)) := by
  constructor
  · intro hle
    simp [gameLoopFrame, hstatus, not_lt.mpr hle]
  · intro hgt nh g s' hadv hmove
    simp [gameLoopFrame, hstatus, hgt, hadv, hmove]

/-- Witness for C2's amended theorem: a frame with elapsed time 100 ≤ 150
leaves state and last committed time alone. -/
theorem frame_gating_witness :
    gameLoopFrame 25 25
        ⟨GameStatus.PLAYING, [⟨10,10⟩, ⟨10,11⟩, ⟨10,12⟩], ⟨5,5⟩,
         Direction.UP, Direction.UP, 0, 0⟩ 0 100 []
      = some (⟨GameStatus.PLAYING, [⟨10,10⟩, ⟨10,11⟩, ⟨10,12⟩], ⟨5,5⟩,
              Direction.UP, Direction.UP, 0, 0⟩, 0) :=
  (frame_gating 25 25
    ⟨GameStatus.PLAYING, [⟨10,10⟩, ⟨10,11⟩, ⟨10,12⟩], ⟨5,5⟩,
     Direction.UP, Direction.UP, 0, 0⟩ 0 100 [] rfl).1 (by decide)

theorem gameOver_snake (s : AppState) : (gameOver s).snake = s.snake := by
  unfold gameOver; split <;> rfl

theorem gameOver_food (s : AppState) : (gameOver s).food = s.food := by
  unfold gameOver; split <;> rfl

theorem gameOver_score (s : AppState) : (gameOver s).score = s.score := by
  unfold gameOver; split <;> rfl

theorem gameOver_direction (s : AppState) : (gameOver s).direction = s.direction := by
  unfold gameOver; split <;> rfl

theorem gameOver_nextDirection (s : AppState) :
    (gameOver s).nextDirection = s.nextDirection := by
  unfold gameOver; split <;> rfl

theorem gameOver_status (s : AppState) :
    (gameOver s).status = GameStatus.GAME_OVER := by
  unfold gameOver; split <;> rfl

/-- C7: a tick whose candidate head leaves [0,width)×[0,height) yields
COLLIDED, `onGameOver` fires and the status becomes GAME_OVER; in
particular head (0,5) heading LEFT on a 25×25 board collides. -/
theorem wall_collision (W H : Int) (s : AppState) (head : Coordinate)
    (rest : List Coordinate) (lastTime t : Int) (draws : List Coordinate)
    (hstatus : s.status = GameStatus.PLAYING)
    (hsnake : s.snake = head :: rest)
    (hdue : t - lastTime > (speed s.score : Int))
    (hout : ¬(0 ≤ (nextHead head s.nextDirection).x ∧
              (nextHead head s.nextDirection).x < W ∧
              0 ≤ (nextHead head s.nextDirection).y ∧
              (nextHead head s.nextDirection).y < H)) :
    advance s.snake s.nextDirection s.food W H = some TickResult.COLLIDED ∧
    gameLoopFrame W H s lastTime t draws = some (gameOver s, lastTime) ∧
    (gameOver s).status = GameStatus.GAME_OVER ∧
    advance [⟨0,5⟩, ⟨0,6⟩, ⟨0,7⟩] Direction.LEFT ⟨5,5⟩ 25 25
      = some TickResult.COLLIDED := by
  have hwall : wallHit (nextHead head s.nextDirection) W H = true := by
    simp only [wallHit, Bool.or_eq_true, decide_eq_true_eq]
    omega
  have hadv : advance s.snake s.nextDirection s.food W H
      = some TickResult.COLLIDED := by
    rw [hsnake]
    simp [advance, hwall]
  refine ⟨hadv, ?_, gameOver_status s, by decide⟩
  simp [gameLoopFrame, hstatus, hdue, hadv]

/-- Witness for C7 at the reference scenario. -/
theorem wall_collision_witness :
    advance [⟨0,5⟩, ⟨0,6⟩, ⟨0,7⟩] Direction.LEFT ⟨5,5⟩ 25 25
      = some TickResult.COLLIDED ∧
    (gameOver ⟨GameStatus.PLAYING, [⟨0,5⟩, ⟨0,6⟩, ⟨0,7⟩], ⟨5,5⟩,
        Direction.LEFT, Direction.LEFT, 0, 0⟩).status = GameStatus.GAME_OVER := by
  have h := wall_collision 25 25
    ⟨GameStatus.PLAYING, [⟨0,5⟩, ⟨0,6⟩, ⟨0,7⟩], ⟨5,5⟩,
     Direction.LEFT, Direction.LEFT, 0, 0⟩
    ⟨0,5⟩ [⟨0,6⟩, ⟨0,7⟩] 0 151 [] rfl rfl (by decide) (by decide)
  exact ⟨h.1, h.2.2.1⟩

/-- C9: a frame outside PLAYING (IDLE, PAUSED or GAME_OVER) mutates
nothing — state and last committed time are returned unchanged; pause
and resume change only the status, leaving Actor, Food, Score and both
headings alone. -/
theorem non_playing_frame (W H : Int) (s : AppState) (lastTime t : Int)
    (draws : List Coordinate) (h : s.status ≠ GameStatus.PLAYING) :
    gameLoopFrame W H s lastTime t draws = some (s, lastTime) ∧
    (pauseGame s).status = GameStatus.PAUSED ∧
    (pauseGame s).snake = s.snake ∧ (pauseGame s).food = s.food ∧
    (pauseGame s).score = s.score ∧ (pauseGame s).direction = s.direction ∧
    (pauseGame s).nextDirection = s.nextDirection ∧
    (resumeGame s).status = GameStatus.PLAYING ∧
    (resumeGame s).snake = s.snake ∧ (resumeGame s).food = s.food ∧
    (resumeGame s).score = s.score ∧ (resumeGame s).direction = s.direction ∧
    (resumeGame s).nextDirection = s.nextDirection :=
  ⟨by simp [gameLoopFrame, h], rfl, rfl, rfl, rfl, rfl, rfl,
   rfl, rfl, rfl, rfl, rfl, rfl⟩

/-- Witness for C9 on a PAUSED state. -/
theorem non_playing_frame_witness :
    gameLoopFrame 25 25
        ⟨GameStatus.PAUSED, [⟨10,10⟩, ⟨10,11⟩], ⟨5,5⟩,
         Direction.UP, Direction.UP, 2, 4⟩ 0 1000 []
      = some (⟨GameStatus.PAUSED, [⟨10,10⟩, ⟨10,11⟩], ⟨5,5⟩,
              Direction.UP, Direction.UP, 2, 4⟩, 0) :=
  (non_playing_frame 25 25
    ⟨GameStatus.PAUSED, [⟨10,10⟩, ⟨10,11⟩], ⟨5,5⟩,
     Direction.UP, Direction.UP, 2, 4⟩ 0 1000 [] (by decide)).1

/-- C10: a COLLIDED tick is atomic on the game data: the frame returns
`gameOver s` with the old last committed time; `gameOver` leaves Actor,
Food, Score and both headings unchanged, sets GAME_OVER, and raises the
best score to the final score exactly when it beats the previous best. -/
theorem collided_atomic (W H : Int) (s : AppState) (lastTime t : Int)
    (draws : List Coordinate)
    (hstatus : s.status = GameStatus.PLAYING)
    (hdue : t - lastTime > (speed s.score : Int))
    (hcol : advance s.snake s.nextDirection s.food W H
      = some TickResult.COLLIDED) :
    gameLoopFrame W H s lastTime t draws = some (gameOver s, lastTime) ∧
    (gameOver s).snake = s.snake ∧ (gameOver s).food = s.food ∧
    (gameOver s).score = s.score ∧ (gameOver s).direction = s.direction ∧
    (gameOver s).nextDirection = s.nextDirection ∧
    (gameOver s).status = GameStatus.GAME_OVER ∧
    (s.score > s.highScore → (gameOver s).highScore = s.score) ∧
    (¬ s.score > s.highScore → (gameOver s).highScore = s.highScore) := by
  refine ⟨?_, gameOver_snake s, gameOver_food s, gameOver_score s,
    gameOver_direction s, gameOver_nextDirection s, gameOver_status s, ?_, ?_⟩
  · simp [gameLoopFrame, hstatus, hdue, hcol]
  · intro hgt; unfold gameOver; rw [if_pos hgt]
  · intro hle; unfold gameOver; rw [if_neg hle]

/-- Witness for C10 on a self-collision tick with score 3 beating best 1. -/
theorem collided_atomic_witness :
    gameLoopFrame 25 25
        ⟨GameStatus.PLAYING, [⟨5,5⟩, ⟨5,6⟩, ⟨6,6⟩, ⟨6,5⟩, ⟨7,5⟩], ⟨1,1⟩,
         Direction.RIGHT, Direction.RIGHT, 3, 1⟩ 0 200 []
      = some (gameOver ⟨GameStatus.PLAYING, [⟨5,5⟩, ⟨5,6⟩, ⟨6,6⟩, ⟨6,5⟩, ⟨7,5⟩],
              ⟨1,1⟩, Direction.RIGHT, Direction.RIGHT, 3, 1⟩, 0) ∧
    (gameOver ⟨GameStatus.PLAYING, [⟨5,5⟩, ⟨5,6⟩, ⟨6,6⟩, ⟨6,5⟩, ⟨7,5⟩], ⟨1,1⟩,
        Direction.RIGHT, Direction.RIGHT, 3, 1⟩).highScore = 3 := by
  have h := collided_atomic 25 25
    ⟨GameStatus.PLAYING, [⟨5,5⟩, ⟨5,6⟩, ⟨6,6⟩, ⟨6,5⟩, ⟨7,5⟩], ⟨1,1⟩,
     Direction.RIGHT, Direction.RIGHT, 3, 1⟩ 0 200 [] rfl (by decide) (by decide)
  exact ⟨h.1, h.2.2.2.2.2.2.2.1 (by decide)⟩

/-- C5: a non-colliding tick whose candidate head lands on the Food
commits with grew = true, lengthens the Actor by 1, raises the Score by
exactly 1, and re-spawns the Food on a cell occupied by no segment of
the grown Actor. -/
theorem growth_tick (s : AppState) (head : Coordinate) (rest : List Coordinate)
    (W H : Int) (draws : List Coordinate) (nh : Coordinate) (g : Bool)
    (s' : AppState)
    (hsnake : s.snake = head :: rest)
    (hfood : nextHead head s.nextDirection = s.food)
    (hadv : advance s.snake s.nextDirection s.food W H
      = some (TickResult.MOVED nh g))
    (hmove : handleMove s nh g draws = some s') :
    g = true ∧ nh = s.food ∧
    s'.snake.length = s.snake.length + 1 ∧
    s'.score = s.score + 1 ∧
    ∀ seg ∈ s'.snake, ¬(seg.x = s'.food.x ∧ seg.y = s'.food.y) := by
  rw [hsnake] at hadv
  obtain ⟨hnh, hg⟩ := advance_moved_eq head rest _ _ W H nh g hadv
  have hnf : nh = s.food := hnh.trans hfood
  have hgt : g = true := by
    rw [hg, hfood]
    simp
  subst hgt
  simp only [handleMove, if_true] at hmove
  cases hfind : getRandomPosition draws (nh :: s.snake) with
  | none => rw [hfind] at hmove; exact absurd hmove (by simp)
  | some f =>
    rw [hfind] at hmove
    injection hmove with h1
    subst h1
    refine ⟨rfl, hnf, by simp, rfl, ?_⟩
    intro seg hmem hcon
    have hp := List.find?_some hfind
    rw [Bool.not_eq_true', List.any_eq_false] at hp
    have := hp seg hmem
    simp [hcon.1, hcon.2] at this

/-- Witness for C5: Actor [(10,10),(10,11)] heading UP onto Food (10,9),
with the random stream offering (3,3). -/
theorem growth_tick_witness :
    (true = true) ∧ (⟨10,9⟩ : Coordinate) = ⟨10,9⟩ ∧
    ([⟨10,9⟩, ⟨10,10⟩, ⟨10,11⟩] : List Coordinate).length
      = ([⟨10,10⟩, ⟨10,11⟩] : List Coordinate).length + 1 ∧
    (4 : Nat) = 3 + 1 ∧
    ∀ seg ∈ ([⟨10,9⟩, ⟨10,10⟩, ⟨10,11⟩] : List Coordinate),
      ¬(seg.x = (3 : Int) ∧ seg.y = (3 : Int)) := by
  have h := growth_tick
    ⟨GameStatus.PLAYING, [⟨10,10⟩, ⟨10,11⟩], ⟨10,9⟩, Direction.UP,
     Direction.UP, 3, 0⟩
    ⟨10,10⟩ [⟨10,11⟩] 25 25 [⟨3,3⟩] ⟨10,9⟩ true
    ⟨GameStatus.PLAYING, [⟨10,9⟩, ⟨10,10⟩, ⟨10,11⟩], ⟨3,3⟩, Direction.UP,
     Direction.UP, 4, 0⟩
    rfl rfl (by decide) (by decide)
  exact h

theorem reverseDir_reverseDir (d : Direction) : reverseDir (reverseDir d) = d := by
  cases d <;> rfl

theorem reverseDir_ne (d : Direction) : reverseDir d ≠ d := by
  cases d <;> decide

theorem foldl_handleDirectionKey (keys : List Direction) (s : AppState)
    (hinv : s.nextDirection ≠ reverseDir s.direction) :
    (keys.foldl handleDirectionKey s).direction = s.direction ∧
    (keys.foldl handleDirectionKey s).nextDirection ≠ reverseDir s.direction := by
  induction keys generalizing s with
  | nil => exact ⟨rfl, hinv⟩
  | cons k ks ih =>
    simp only [List.foldl_cons]
    have hstep : (handleDirectionKey s k).direction = s.direction ∧
        (handleDirectionKey s k).nextDirection
          ≠ reverseDir (handleDirectionKey s k).direction := by
      unfold handleDirectionKey
      split
      · exact ⟨rfl, hinv⟩
      · next hne =>
        refine ⟨rfl, ?_⟩
        intro hk
        have hk' : k = reverseDir s.direction := hk
        exact hne (by rw [hk', reverseDir_reverseDir])
    obtain ⟨hd, hn⟩ := hstep
    have hrec := ih (handleDirectionKey s k) hn
    rw [hd] at hrec
    exact hrec

/-- C4: if the queued heading is not the reverse of the last committed
heading (true after every commit), then after any burst of directional
key presses the queued heading — the one the next tick applies — is
still not the reverse of the previously applied heading, the committed
heading is untouched by key handling, every commit re-establishes the
invariant, and queuing DOWN while heading UP is silently ignored. -/
theorem no_reversal (keys : List Direction) (s : AppState)
    (hinv : s.nextDirection ≠ reverseDir s.direction) :
    (keys.foldl handleDirectionKey s).nextDirection ≠ reverseDir s.direction ∧
    (keys.foldl handleDirectionKey s).direction = s.direction ∧
    (∀ (nh : Coordinate) (g : Bool) (draws : List Coordinate) (s' : AppState),
      handleMove s nh g draws = some s' →
      s'.direction = s.nextDirection ∧
      s'.nextDirection ≠ reverseDir s'.direction) ∧
    (s.direction = Direction.UP → s.nextDirection = Direction.UP →
      handleDirectionKey s Direction.DOWN = s) := by
  refine ⟨(foldl_handleDirectionKey keys s hinv).2,
    (foldl_handleDirectionKey keys s hinv).1, ?_, ?_⟩
  · intro nh g draws s' hmove
    cases g
    · simp only [handleMove, Bool.false_eq_true, if_false] at hmove
      injection hmove with h1
      subst h1
      exact ⟨rfl, Ne.symm (reverseDir_ne s.nextDirection)⟩
    · simp only [handleMove, if_true] at hmove
      cases hfind : getRandomPosition draws (nh :: s.snake) with
      | none => rw [hfind] at hmove; exact absurd hmove (by simp)
      | some f =>
        rw [hfind] at hmove
        injection hmove with h1
        subst h1
        exact ⟨rfl, Ne.symm (reverseDir_ne s.nextDirection)⟩
  · intro h1 h2
    unfold handleDirectionKey
    rw [if_pos (by rw [h1]; rfl)]

/-- Witness for C4: heading UP with DOWN queued before the next tick —
the queued heading stays UP, not the reverse of UP. -/
theorem no_reversal_witness :
    ([Direction.DOWN].foldl handleDirectionKey
        ⟨GameStatus.PLAYING, [⟨10,10⟩], ⟨5,5⟩, Direction.UP, Direction.UP,
         0, 0⟩).nextDirection
      ≠ reverseDir Direction.UP :=
  (no_reversal [Direction.DOWN]
    ⟨GameStatus.PLAYING, [⟨10,10⟩], ⟨5,5⟩, Direction.UP, Direction.UP, 0, 0⟩
    (by decide)).1

end Snake
